import Mathlib

/-!
A shallow embedding of `open-rpc-derive/src/rpc_trait.rs` from the
rust-open-rpc-macros repository, together with theorems settling the
behavioural claims about its transformation pipeline.

The syntax-tree types of `syn` are embedded at the fidelity the code under
`src/` observes them (attribute paths and argument shapes, method names and
signatures, associated-type bounds, impl trait paths).  The two collaborator
modules `attr.rs` and `to_gen_schema.rs` are not part of the sources; the
pieces of them this file needs are modelled from the spec and marked as such
in their doc comments.  A Rust panic (`Option::unwrap` on `None`) is embedded
as the `none` value of an outer `Option` layer on the result.
-/

namespace OpenRpc

/-- Argument tokens of one attribute, abstracted at the level the attribute
model observes them: a shape-valid rpc argument list (optional name override,
metadata flag), a shape-invalid rpc argument list carrying a diagnostic, or
the raw tokens of an attribute this derive never interprets.
Modelled from the spec: the concrete argument grammar lives in `attr.rs`,
which is absent from src/; spec section 4.1 specifies only shape validity. -/
inductive AttrArgs where
  | rpcArgs (nameOverride : Option String) (hasMetadata : Bool)
  | badArgs (description : String)
  | otherArgs (raw : String)
deriving DecidableEq

/-- One attribute attached to a declaration (syn::Attribute): its path and
its argument tokens. -/
structure Attribute where
  path : String
  args : AttrArgs
deriving DecidableEq

/-- A trait method item (syn::TraitItemMethod): attributes, name, whether it
takes a self receiver, its further inputs as name/type pairs, its return
type, and whether it carries a default body. -/
structure TraitItemMethod where
  attrs : List Attribute
  name : String
  hasSelfArg : Bool
  inputs : List (String × String)
  output : Option String
  defaultBody : Bool
deriving DecidableEq

/-- A trait associated-type item (syn::TraitItemType): its name and bounds. -/
structure TraitItemType where
  ident : String
  bounds : List String
deriving DecidableEq

/-- A trait item (syn::TraitItem): a method, an associated type, or any
other member the code never inspects. -/
inductive TraitItem where
  | method (m : TraitItemMethod)
  | assocType (t : TraitItemType)
  | otherItem (code : String)
deriving DecidableEq

/-- A trait declaration (syn::ItemTrait): its name and its items. -/
structure ItemTrait where
  ident : String
  items : List TraitItem
deriving DecidableEq

/-- The body of an impl method: either the synthesized delegation
`super::<module>::<function>()` or ordinary code the derive never builds. -/
inductive ImplItemBody where
  | delegateSchema (modName : String) (fnName : String)
  | otherBody (code : String)
deriving DecidableEq

/-- An item of an impl block (syn::ImplItem). -/
inductive ImplItem where
  | method (name : String) (body : ImplItemBody)
  | otherItem (code : String)
deriving DecidableEq

/-- An impl block (syn::ItemImpl): the self type, the optional trait path it
implements (`None` for an inherent impl; the path is a list of segments),
and its items. -/
structure ItemImpl where
  selfTy : String
  traitPath : Option (List String)
  items : List ImplItem
deriving DecidableEq

/-- A top-level item (syn::Item): trait declaration, impl block, or any
other category of declaration. -/
inductive Item where
  | traitDecl (t : ItemTrait)
  | implDecl (i : ItemImpl)
  | otherItem (code : String)
deriving DecidableEq

/-- The node a diagnostic is attached to by `syn::Error::new_spanned`. -/
inductive ErrNode where
  | methodNode (m : TraitItemMethod)
  | itemNode (i : Item)
deriving DecidableEq

/-- A located diagnostic (syn::Error built via new_spanned). -/
structure SynError where
  node : ErrNode
  msg : String
deriving DecidableEq

/-- Embedding of `syn::Error::new_spanned`: attach a message to a node. -/
def SynError.new_spanned (n : ErrNode) (m : String) : SynError := ⟨n, m⟩

/-- The recognized attribute kinds (`AttributeKind` of `attr.rs`).
Modelled from the spec: a single variant
`Rpc \x7b name_override, has_metadata, .. \x7d` (spec section 3). -/
inductive AttributeKind where
  | rpc (nameOverride : Option String) (hasMetadata : Bool)
deriving DecidableEq

/-- The metadata flag of an attribute kind. -/
def AttributeKind.hasMeta : AttributeKind → Bool
  | .rpc _ h => h

/-- A parsed rpc attribute (`RpcMethodAttribute` of `attr.rs`): the raw
attribute node kept for later stripping, plus its parsed kind.
Modelled from the spec: `ParsedAttribute` in spec section 3. -/
structure RpcMethodAttribute where
  attr : Attribute
  kind : AttributeKind
deriving DecidableEq

/-- Embedding of `RpcMethodAttribute::parse_attr` from `attr.rs`.
Modelled from the spec (the file is absent from src/): inspect the method
attribute list; with no recognized (rpc-path) attribute present return
`Ok None`; with one present, a shape-valid argument list parses into the
rpc kind and a shape-invalid one fails with a diagnostic
(spec section 4.1). -/
def RpcMethodAttribute.parse_attr (m : TraitItemMethod) :
    Except String (Option RpcMethodAttribute) :=
  match m.attrs.find? (fun a => a.path == "rpc") with
  | none => .ok none
  | some a =>
    match a.args with
    | .rpcArgs n h => .ok (some ⟨a, .rpc n h⟩)
    | .badArgs d => .error d
    | .otherArgs r => .error r

/-- A registered method (`RpcMethod` of `to_gen_schema.rs`): the parsed
attribute paired with the original trait method declaration.
Modelled from the spec: `RegisteredMethod` in spec section 3; the field and
accessor names `attr` and `trait_item` follow their uses in rpc_trait.rs. -/
structure RpcMethod where
  attr : RpcMethodAttribute
  trait_item : TraitItemMethod
deriving DecidableEq

/-- The exposed schema name of a registered method: the override when given,
else the declared name (spec section 3, Schema Document). -/
def RpcMethod.exposedName (m : RpcMethod) : String :=
  match m.attr.kind with
  | .rpc (some n) _ => n
  | .rpc none _ => m.trait_item.name

/-- A registration record (`MethodRegistration` of `to_gen_schema.rs`).
Modelled from the spec: single variant
`Standard \x7b method, has_metadata \x7d` (spec section 3). -/
inductive MethodRegistration where
  | standard (method : RpcMethod) (hasMetadata : Bool)
deriving DecidableEq

/-- The synthesized zero-argument schema-construction function: its export
name and the registration list it was synthesized from. -/
structure GenSchemaFn where
  fname : String
  regs : List MethodRegistration
deriving DecidableEq

/-- Embedding of `generate_schema_method` from `to_gen_schema.rs`.
Modelled from the spec (the file is absent from src/): a pure function of
the registration list producing the schema-construction routine under the
fixed export name `gen_schema` (spec sections 4.3 and 4.4 step 3); the spec
describes no failure of the synthesizer itself, so it is total here, inside
the `Result` type its caller unwraps with `?`. -/
def generate_schema_method (regs : List MethodRegistration) :
    Except SynError GenSchemaFn :=
  .ok ⟨"gen_schema", regs⟩

/-- The per-method results of the first phase of
`compute_method_registrations` (rpc_trait.rs lines 45-59): the trait items
are filtered to methods, each method is parsed, an unannotated method is
discarded, and a parse failure is wrapped with the offending method via
`syn::Error::new_spanned`. -/
def methodItems (items : List TraitItem) : List (Except SynError RpcMethod) :=
  items.filterMap fun ti =>
    match ti with
    | .method m =>
      match RpcMethodAttribute.parse_attr m with
      | .ok (some attr) => some (.ok ⟨attr, m⟩)
      | .ok none => none
      | .error err => some (.error (SynError.new_spanned (.methodNode m) err))
    | _ => none

/-- Embedding of `collect::<Result<Vec<_>>>()` on the per-method results:
the first error wins, otherwise all values are collected in order. -/
def collectExcept : List (Except SynError RpcMethod) →
    Except SynError (List RpcMethod)
  | [] => .ok []
  | .error e :: _ => .error e
  | .ok v :: xs =>
    match collectExcept xs with
    | .error e => .error e
    | .ok vs => .ok (v :: vs)

/-- Embedding of `compute_method_registrations` (rpc_trait.rs lines 44-75):
collect the parsed methods (first parse error aborts), then wrap each one
into `MethodRegistration::Standard` carrying its metadata flag. -/
def compute_method_registrations (item_trait : ItemTrait) :
    Except SynError (List MethodRegistration) :=
  match collectExcept (methodItems item_trait.items) with
  | .error e => .error e
  | .ok methods =>
    .ok (methods.map fun m =>
      match m.attr.kind with
      | .rpc _ hm => .standard m hm)

/-- Embedding of `rpc_wrapper_mod_name` (rpc_trait.rs lines 77-81): the
companion module name is the fixed text `openrpc_schema_` followed by the
interface name. -/
def rpc_wrapper_mod_name (ident : String) : String :=
  "openrpc_schema_" ++ ident

/-- Embedding of `RpcTrait::fold_trait_item_method` (rpc_trait.rs lines
23-31): keep each attribute of the visited method unless some registered
method whose `trait_item` equals the visited method records exactly that
attribute node.  In the source this Fold is defined but never invoked by
`handle_trait`. -/
def fold_trait_item_method (methods : List RpcMethod)
    (method : TraitItemMethod) : TraitItemMethod :=
  { method with
    attrs := method.attrs.filter fun a =>
      match methods.find? (fun m => m.trait_item == method) with
      | none => true
      | some rpc => !(rpc.attr.attr == a) }

/-- Embedding of `RpcTrait::fold_trait_item_type` (rpc_trait.rs lines
33-41): on the associated type named `Metadata`, push the bound
`_jsonrpc_core::Metadata`; any other associated type is returned unchanged.
(The source also sets a `has_metadata` flag that nothing reads.)  In the
source this Fold is defined but never invoked by `handle_trait`. -/
def fold_trait_item_type (ty : TraitItemType) : TraitItemType :=
  if ty.ident == "Metadata" then
    { ty with bounds := ty.bounds ++ ["_jsonrpc_core::Metadata"] }
  else ty

/-- The method signature `handle_trait` appends (rpc_trait.rs lines 88-91):
`#[doc(hidden)] fn schema(&self) -> OpenrpcDocument;` — no inputs beyond
the self receiver, no default body. -/
def schema_signature : TraitItemMethod :=
  { attrs := [⟨"doc", .otherArgs "(hidden)"⟩]
    name := "schema"
    hasSelfArg := true
    inputs := []
    output := some "OpenrpcDocument"
    defaultBody := false }

/-- The emitted token stream, structured: `handle_trait` emits the companion
module (named `modName`, containing the synthesized function), the
re-export `pub use self::<modName>::<reExportFn>`, and the rewritten trait;
`handle_impl` emits the rewritten impl block. -/
inductive Output where
  | traitOut (modName : String) (gen : GenSchemaFn) (reExportFn : String)
      (tr : ItemTrait)
  | implOut (im : ItemImpl)
deriving DecidableEq

/-- Embedding of `handle_trait` (rpc_trait.rs lines 84-108): compute the
registrations from the input trait, derive the companion module name,
synthesize the schema function, append the `schema` signature to the trait
items, and emit module, re-export of `gen_schema`, and the trait.  No Fold
is applied anywhere: the emitted trait items are the original items plus
the appended signature. -/
def handle_trait (rpc_tr : ItemTrait) : Except SynError Output :=
  match compute_method_registrations rpc_tr with
  | .error e => .error e
  | .ok method_registrations =>
    match generate_schema_method method_registrations with
    | .error e => .error e
    | .ok gen =>
      let mod_name := rpc_wrapper_mod_name rpc_tr.ident
      let rewritten :=
        { rpc_tr with items := rpc_tr.items ++ [.method schema_signature] }
      .ok (.traitOut mod_name gen "gen_schema" rewritten)

/-- Embedding of `syn::Path::get_ident`: the single segment of a
one-segment path, nothing otherwise. -/
def Path.get_ident : List String → Option String
  | [s] => some s
  | _ => none

/-- Embedding of `handle_impl` (rpc_trait.rs lines 111-122): unwrap the
trait path of the impl (`.trait_.unwrap()` — a panic, embedded as `none`,
when the impl is inherent), unwrap its single-segment ident (a second
possible panic), derive the companion module name, and append a `schema`
method whose body delegates to `super::<module>::gen_schema()`. -/
def handle_impl (rpc_impl : ItemImpl) : Option (Except SynError Output) :=
  match rpc_impl.traitPath with
  | none => none
  | some path =>
    match Path.get_ident path with
    | none => none
    | some ident =>
      let mod_name := rpc_wrapper_mod_name ident
      some (.ok (.implOut
        { rpc_impl with
          items := rpc_impl.items ++
            [.method "schema" (.delegateSchema mod_name "gen_schema")] }))

/-- Embedding of the entry point `rpc_trait` (rpc_trait.rs lines 124-135):
dispatch on the syntactic category of the input item; any category other
than trait or impl fails with a located diagnostic carrying the offending
node.  The outer `Option` propagates the possible panic of `handle_impl`. -/
def rpc_trait (input : Item) : Option (Except SynError Output) :=
  match input with
  | .traitDecl item_trait => some (handle_trait item_trait)
  | .implDecl item_impl => handle_impl item_impl
  | .otherItem code =>
    some (.error (SynError.new_spanned (.itemNode (.otherItem code))
      "The #[document_rpc] custom attribute only works with trait and impl declarations"))

/-- First parse error among the per-method results, in declaration order. -/
def firstErrOf : List (Except SynError RpcMethod) → Option SynError
  | [] => none
  | .error e :: _ => some e
  | .ok _ :: xs => firstErrOf xs

/-- First attribute parse error of a trait, in declaration order. -/
def firstParseError (t : ItemTrait) : Option SynError :=
  firstErrOf (methodItems t.items)

/-- The annotated methods of a trait item list, in declaration order, with
unannotated methods and non-method members discarded. -/
def annotatedMethods (items : List TraitItem) : List RpcMethod :=
  items.filterMap fun ti =>
    match ti with
    | .method m =>
      match RpcMethodAttribute.parse_attr m with
      | .ok (some attr) => some ⟨attr, m⟩
      | _ => none
    | _ => none

/-- The companion module name a trait output carries. -/
def Output.emittedModName : Output → Option String
  | .traitOut mn _ _ _ => some mn
  | .implOut _ => none

/-- The module a synthesized `schema` impl method delegates to. -/
def ImplItem.schemaDelegateMod : ImplItem → Option String
  | .method n (.delegateSchema mn fn) =>
    if n == "schema" && fn == "gen_schema" then some mn else none
  | _ => none

/-- The module the last item of an emitted impl block delegates to. -/
def Output.referencedModName : Output → Option String
  | .implOut i => i.items.getLast?.bind ImplItem.schemaDelegateMod
  | .traitOut _ _ _ _ => none

/-- A concrete rpc attribute with no overrides. -/
def exRpcAttr : Attribute := ⟨"rpc", .rpcArgs none false⟩

/-- A concrete annotated method `fn ping(&self) -> String`. -/
def exPingMethod : TraitItemMethod :=
  ⟨[exRpcAttr], "ping", true, [], some "String", false⟩

/-- A concrete trait `Api` with the one annotated method. -/
def exTrait : ItemTrait := ⟨"Api", [.method exPingMethod]⟩

/-- The registered method of `exTrait`. -/
def exPingReg : RpcMethod := ⟨⟨exRpcAttr, .rpc none false⟩, exPingMethod⟩

/-- The trait `handle_trait` emits for `exTrait`. -/
def exTraitOut : ItemTrait :=
  { exTrait with items := exTrait.items ++ [.method schema_signature] }

/-- A concrete annotated method named `foo`. -/
def dupFooMethod : TraitItemMethod :=
  ⟨[⟨"rpc", .rpcArgs none false⟩], "foo", true, [], some "u64", false⟩

/-- A concrete annotated method named `bar` whose attribute overrides its
exposed name to `foo`. -/
def dupBarMethod : TraitItemMethod :=
  ⟨[⟨"rpc", .rpcArgs (some "foo") false⟩], "bar", true, [], some "u64", false⟩

/-- A concrete trait whose two annotated methods expose the same name. -/
def dupTrait : ItemTrait := ⟨"Dup", [.method dupFooMethod, .method dupBarMethod]⟩

/-- The first registered method of `dupTrait`. -/
def dupReg1 : RpcMethod :=
  ⟨⟨⟨"rpc", .rpcArgs none false⟩, .rpc none false⟩, dupFooMethod⟩

/-- The second registered method of `dupTrait`. -/
def dupReg2 : RpcMethod :=
  ⟨⟨⟨"rpc", .rpcArgs (some "foo") false⟩, .rpc (some "foo") false⟩, dupBarMethod⟩

/-- A concrete inherent impl block (no trait path). -/
def inherentImpl : ItemImpl := ⟨"PlainType", none, []⟩

/-- A concrete impl block implementing the trait `Api`. -/
def exImpl : ItemImpl := ⟨"ApiServer", some ["Api"], []⟩

/-- A concrete method whose rpc attribute has a shape-invalid argument
list. -/
def badMethod : TraitItemMethod :=
  ⟨[⟨"rpc", .badArgs "expected string literal"⟩], "broken", true, [], some "u64", false⟩

/-- A concrete trait containing the malformed method. -/
def badTrait : ItemTrait := ⟨"Bad", [.method badMethod]⟩

/-- The diagnostic `compute_method_registrations` attaches for
`badTrait`. -/
def badErr : SynError := ⟨.methodNode badMethod, "expected string literal"⟩

/-- A concrete associated type `Metadata` with no bounds. -/
def metaTy : TraitItemType := ⟨"Metadata", []⟩

/-- A concrete trait declaring the `Metadata` associated type. -/
def metaTrait : ItemTrait := ⟨"WithMeta", [.assocType metaTy]⟩

/-- The trait `handle_trait` emits for `metaTrait`. -/
def metaTraitOut : ItemTrait :=
  { metaTrait with items := metaTrait.items ++ [.method schema_signature] }

theorem collectExcept_of_no_err (l : List (Except SynError RpcMethod))
    (h : firstErrOf l = none) :
    collectExcept l = .ok (l.filterMap Except.toOption) := by
  induction l with
  | nil => rfl
  | cons x xs ih =>
    cases x with
    | error e => simp [firstErrOf] at h
    | ok v =>
      rw [firstErrOf] at h
      rw [collectExcept, ih h]
      simp [Except.toOption]

theorem collectExcept_of_err (l : List (Except SynError RpcMethod))
    (e : SynError) (h : firstErrOf l = some e) :
    collectExcept l = .error e := by
  induction l with
  | nil => simp [firstErrOf] at h
  | cons x xs ih =>
    cases x with
    | error e₀ =>
      rw [firstErrOf] at h
      cases h
      rfl
    | ok v =>
      rw [firstErrOf] at h
      rw [collectExcept, ih h]

theorem methodItems_oks (items : List TraitItem) :
    (methodItems items).filterMap Except.toOption = annotatedMethods items := by
  induction items with
  | nil => rfl
  | cons ti rest ih =>
    simp only [methodItems, annotatedMethods, List.filterMap_cons] at ih ⊢
    cases ti with
    | method m =>
      cases hp : RpcMethodAttribute.parse_attr m with
      | ok o =>
        cases o with
        | none => simpa [hp] using ih
        | some a => simpa [hp, Except.toOption, List.filterMap_cons] using ih
      | error err => simpa [hp, Except.toOption, List.filterMap_cons] using ih
    | assocType t => simpa using ih
    | otherItem c => simpa using ih

theorem methodItems_append_schema (items : List TraitItem) :
    methodItems (items ++ [.method schema_signature]) = methodItems items := by
  rw [methodItems, methodItems, List.filterMap_append]
  simp [RpcMethodAttribute.parse_attr, schema_signature, List.find?]

/-- C1: every attribute recognized by the attribute model is claimed to be
stripped from the rewritten trait.  Evaluating the code at the failing
input: `handle_trait` on a trait with one rpc-annotated method succeeds,
yet the emitted trait still contains that method with its rpc attribute
intact — the stripping Fold (`fold_trait_item_method`, which would remove
the attribute, last conjunct) is defined in the source but never invoked. -/
theorem c1_attr_not_stripped :
    handle_trait exTrait =
      .ok (.traitOut "openrpc_schema_Api" ⟨"gen_schema", [.standard exPingReg false]⟩
        "gen_schema" exTraitOut) ∧
    TraitItem.method exPingMethod ∈ exTraitOut.items ∧
    exRpcAttr ∈ exPingMethod.attrs ∧
    fold_trait_item_method [exPingReg] exPingMethod =
      { exPingMethod with attrs := [] } := by
  refine ⟨by rfl, by decide, by decide, by rfl⟩

/-- C3 counterexample: `handle_impl` on a concrete inherent impl (no trait
path) panics — embedded as `none` — instead of returning any
`NotAnInterfaceImplementation` error value (no such error exists in the
code). -/
theorem c3_inherent_impl_panics : handle_impl inherentImpl = none := rfl

/-- C3 (amended): for every impl block that implements no named trait,
`handle_impl` diverges with a panic (`Option::unwrap` on `None`), embedded
as `none`; it returns neither code nor an error value. -/
theorem handle_impl_panics_without_trait (i : ItemImpl)
    (h : i.traitPath = none) : handle_impl i = none := by
  rw [handle_impl, h]

theorem handle_impl_panics_without_trait_witness :
    inherentImpl.traitPath = none ∧ handle_impl inherentImpl = none :=
  ⟨rfl, handle_impl_panics_without_trait inherentImpl rfl⟩

/-- C4: the metadata capability bound is claimed to be injected on the
associated type named `Metadata`.  Evaluating the code at the failing
input: `handle_trait` on a trait declaring `type Metadata;` succeeds, yet
the emitted trait still contains that associated type with its bounds
unchanged (empty) — the injecting Fold (`fold_trait_item_type`, which
would push the bound, last conjunct) is defined in the source but never
invoked. -/
theorem c4_metadata_bound_not_injected :
    handle_trait metaTrait =
      .ok (.traitOut "openrpc_schema_WithMeta" ⟨"gen_schema", []⟩
        "gen_schema" metaTraitOut) ∧
    TraitItem.assocType metaTy ∈ metaTraitOut.items ∧
    metaTy.bounds = [] ∧
    fold_trait_item_type metaTy = ⟨"Metadata", ["_jsonrpc_core::Metadata"]⟩ := by
  refine ⟨by rfl, by decide, by decide, by rfl⟩

/-- C5: the entry point dispatches purely on the syntactic category of the
input: a trait declaration goes to `handle_trait`, an impl block goes to
`handle_impl`, and every other category produces the located unsupported-
target diagnostic carrying the offending node, never code. -/
theorem rpc_trait_dispatch :
    (∀ t : ItemTrait, rpc_trait (.traitDecl t) = some (handle_trait t)) ∧
    (∀ i : ItemImpl, rpc_trait (.implDecl i) = handle_impl i) ∧
    (∀ code : String, rpc_trait (.otherItem code) =
      some (.error (SynError.new_spanned (.itemNode (.otherItem code))
        "The #[document_rpc] custom attribute only works with trait and impl declarations"))) :=
  ⟨fun _ => rfl, fun _ => rfl, fun _ => rfl⟩

/-- C9: the whole transformation is deterministic — the entry point is a
pure function of the input item, so byte-identical inputs yield identical
outputs (code or error). -/
theorem rpc_trait_deterministic (a b : Item) (h : a = b) :
    rpc_trait a = rpc_trait b :=
  congrArg rpc_trait h

theorem rpc_trait_deterministic_witness :
    rpc_trait (.traitDecl exTrait) = rpc_trait (.traitDecl exTrait) :=
  rpc_trait_deterministic (.traitDecl exTrait) (.traitDecl exTrait) rfl

theorem standard_of_kind (m : RpcMethod) :
    (match m.attr.kind with
      | .rpc _ hm => MethodRegistration.standard m hm) =
      .standard m m.attr.kind.hasMeta := by
  rcases m with ⟨⟨a, k⟩, ti⟩
  cases k
  rfl

/-- C7: when every annotated method's attribute parses,
`compute_method_registrations` returns exactly one `Standard` registration
per annotated method, in declaration order, with unannotated methods and
non-method members discarded; when some attribute is malformed, it returns
the first such parse error, with the offending method attached, and no
registration list. -/
theorem compute_method_registrations_spec (t : ItemTrait) :
    (firstParseError t = none →
      compute_method_registrations t =
        .ok ((annotatedMethods t.items).map fun m =>
          .standard m m.attr.kind.hasMeta)) ∧
    (∀ e, firstParseError t = some e →
      compute_method_registrations t = .error e) := by
  constructor
  · intro h
    rw [firstParseError] at h
    rw [compute_method_registrations, collectExcept_of_no_err _ h, methodItems_oks]
    simp only [standard_of_kind]
    simp only [Except.ok.injEq]
    apply List.map_congr_left
    intro a _
    rcases a with ⟨⟨att, k⟩, ti⟩
    cases k
    rfl
  · intro e h
    rw [firstParseError] at h
    rw [compute_method_registrations, collectExcept_of_err _ e h]

theorem compute_method_registrations_spec_witness :
    compute_method_registrations exTrait =
      .ok ((annotatedMethods exTrait.items).map fun m =>
        .standard m m.attr.kind.hasMeta) ∧
    compute_method_registrations badTrait = .error badErr :=
  ⟨(compute_method_registrations_spec exTrait).1 (by rfl),
   (compute_method_registrations_spec badTrait).2 badErr (by rfl)⟩

/-- C2 counterexample: on a concrete trait whose two annotated methods
expose the same schema name (one by declared name, one by override), the
registration build succeeds and returns both registrations — no
duplicate-name error exists in the code, so the build does return a
successful list holding two registrations with the same exposed name. -/
theorem c2_duplicate_names_accepted :
    compute_method_registrations dupTrait =
      .ok [.standard dupReg1 false, .standard dupReg2 false] ∧
    dupReg1.exposedName = dupReg2.exposedName :=
  ⟨rfl, rfl⟩

/-- C2 (amended): the registration build performs no duplicate-name
detection: it fails exactly when some annotated method's attribute is
malformed, and otherwise succeeds — also when two registrations share an
exposed name. -/
theorem compute_ok_iff_no_parse_error (t : ItemTrait) :
    (compute_method_registrations t).isOk = true ↔ firstParseError t = none := by
  constructor
  · intro h
    cases he : firstParseError t with
    | none => rfl
    | some e =>
      rw [firstParseError] at he
      rw [compute_method_registrations, collectExcept_of_err _ e he] at h
      simp [Except.isOk, Except.toBool] at h
  · intro h
    rw [firstParseError] at h
    rw [compute_method_registrations, collectExcept_of_no_err _ h]
    rfl

theorem compute_ok_iff_no_parse_error_witness :
    (compute_method_registrations dupTrait).isOk = true :=
  (compute_ok_iff_no_parse_error dupTrait).mpr (by rfl)

/-- C6: the companion module name is the pure function
`openrpc_schema_ ++ interface name`, and both rewriting paths use it: the
module emitted by `handle_trait` for a trait is exactly the module the
`schema` method appended by `handle_impl` delegates to, whenever the impl
names that trait. -/
theorem companion_module_names_agree (t : ItemTrait) (i : ItemImpl)
    (hpath : i.traitPath = some [t.ident])
    (out : Output) (hout : handle_trait t = .ok out) :
    rpc_wrapper_mod_name t.ident = "openrpc_schema_" ++ t.ident ∧
    out.emittedModName = some (rpc_wrapper_mod_name t.ident) ∧
    ∃ out₂ : Output, handle_impl i = some (.ok out₂) ∧
      out₂.referencedModName = some (rpc_wrapper_mod_name t.ident) := by
  refine ⟨rfl, ?_, ?_⟩
  · cases hc : compute_method_registrations t with
    | error e =>
      rw [handle_trait, hc] at hout
      cases hout
    | ok regs =>
      rw [handle_trait, hc] at hout
      simp only [generate_schema_method, Except.ok.injEq] at hout
      rw [← hout]
      rfl
  · refine ⟨.implOut { i with items := i.items ++
      [.method "schema" (.delegateSchema (rpc_wrapper_mod_name t.ident) "gen_schema")] },
      ?_, ?_⟩
    · rw [handle_impl, hpath]
      rfl
    · rw [Output.referencedModName]
      rw [show (({ i with items := i.items ++
          [.method "schema" (.delegateSchema (rpc_wrapper_mod_name t.ident) "gen_schema")] }
          : ItemImpl)).items = i.items ++
          [.method "schema" (.delegateSchema (rpc_wrapper_mod_name t.ident) "gen_schema")]
        from rfl]
      rw [List.getLast?_concat]
      rfl

theorem companion_module_names_agree_witness :
    rpc_wrapper_mod_name exTrait.ident = "openrpc_schema_" ++ exTrait.ident ∧
    (Output.traitOut "openrpc_schema_Api"
      ⟨"gen_schema", [.standard exPingReg false]⟩ "gen_schema"
      exTraitOut).emittedModName = some (rpc_wrapper_mod_name exTrait.ident) ∧
    ∃ out₂ : Output, handle_impl exImpl = some (.ok out₂) ∧
      out₂.referencedModName = some (rpc_wrapper_mod_name exTrait.ident) :=
  companion_module_names_agree exTrait exImpl rfl
    (.traitOut "openrpc_schema_Api"
      ⟨"gen_schema", [.standard exPingReg false]⟩ "gen_schema" exTraitOut)
    (by rfl)

/-- C8: on every trait whose registrations build, `handle_trait` emits the
companion module named by `rpc_wrapper_mod_name`, holding the synthesized
function under the fixed name `gen_schema`, a re-export of that function
under the same fixed name, and the trait with exactly one appended method
signature: `schema`, taking only the self receiver, returning
`OpenrpcDocument`, with no body. -/
theorem handle_trait_output_shape (t : ItemTrait)
    (regs : List MethodRegistration)
    (h : compute_method_registrations t = .ok regs) :
    handle_trait t =
      .ok (.traitOut (rpc_wrapper_mod_name t.ident) ⟨"gen_schema", regs⟩
        "gen_schema" { t with items := t.items ++ [.method schema_signature] }) ∧
    schema_signature.name = "schema" ∧
    schema_signature.hasSelfArg = true ∧
    schema_signature.inputs = [] ∧
    schema_signature.output = some "OpenrpcDocument" ∧
    schema_signature.defaultBody = false := by
  refine ⟨?_, rfl, rfl, rfl, rfl, rfl⟩
  rw [handle_trait, h]
  rfl

theorem handle_trait_output_shape_witness :
    handle_trait exTrait =
      .ok (.traitOut (rpc_wrapper_mod_name exTrait.ident)
        ⟨"gen_schema", [.standard exPingReg false]⟩ "gen_schema"
        { exTrait with items := exTrait.items ++ [.method schema_signature] }) ∧
    schema_signature.name = "schema" ∧
    schema_signature.hasSelfArg = true ∧
    schema_signature.inputs = [] ∧
    schema_signature.output = some "OpenrpcDocument" ∧
    schema_signature.defaultBody = false :=
  handle_trait_output_shape exTrait [.standard exPingReg false] (by rfl)

theorem compute_append_schema (t : ItemTrait) :
    compute_method_registrations
      { t with items := t.items ++ [.method schema_signature] } =
      compute_method_registrations t := by
  simp only [compute_method_registrations]
  rw [methodItems_append_schema]

/-- C10: the appended `schema` accessor never registers itself — the
registrations are computed from the original trait, the synthesized
function is built from exactly that list, and re-running the registration
build on the emitted trait (with the accessor appended) yields the same
result as on the unmodified input trait. -/
theorem schema_accessor_not_registered (t : ItemTrait) (mn : String)
    (g : GenSchemaFn) (rx : String) (tr : ItemTrait)
    (h : handle_trait t = .ok (.traitOut mn g rx tr)) :
    compute_method_registrations tr = compute_method_registrations t ∧
    compute_method_registrations t = .ok g.regs := by
  cases hc : compute_method_registrations t with
  | error e =>
    rw [handle_trait, hc] at h
    cases h
  | ok regs =>
    rw [handle_trait, hc] at h
    simp only [generate_schema_method, Except.ok.injEq, Output.traitOut.injEq] at h
    obtain ⟨h1, h2, h3, h4⟩ := h
    subst h4
    subst h2
    refine ⟨?_, rfl⟩
    rw [compute_append_schema t]
    exact hc

theorem schema_accessor_not_registered_witness :
    compute_method_registrations exTraitOut = compute_method_registrations exTrait ∧
    compute_method_registrations exTrait =
      .ok (GenSchemaFn.mk "gen_schema" [.standard exPingReg false]).regs :=
  schema_accessor_not_registered exTrait "openrpc_schema_Api"
    ⟨"gen_schema", [.standard exPingReg false]⟩ "gen_schema" exTraitOut (by rfl)

end OpenRpc
